import Mathlib

/-!
Shallow embedding of `source/payment_engine.py` (classes `Account`,
`Transaction`, `TransactionValidator`, `PaymentsEngine`) and proofs about
its transaction state machine.

Amounts are modelled as rationals; the engine state mirrors the three
mutable containers of `PaymentsEngine`: the dict `_deposits_withdrawals`
(ledger of accepted deposits/withdrawals keyed by transaction id), the
list `_disputed_deposits_ids`, and the dict `_clients` of accounts.
Python dicts are modelled as association lists looked up by first match.
-/

namespace PaymentEngine

/-- The five recognized transaction kinds (`TransactionType.ALLTYPES`).
Records with an unrecognized kind string are rejected by
`TransactionValidator._is_valid_type` before reaching the engine, so the
embedding represents only the five valid kinds. -/
inductive TransactionType where
  | deposit
  | withdrawal
  | dispute
  | resolve
  | chargeback
deriving DecidableEq

/-- Mirror of class `Transaction`: kind, client id, transaction id, amount.
The CSV gives no amount for dispute/resolve/chargeback rows; the field is
ignored for those kinds. -/
structure Transaction where
  type : TransactionType
  client_id : Nat
  id : Nat
  amount : Rat
deriving DecidableEq

/-- Mirror of class `Account` (`__init__`): available, held, lock flag. -/
structure Account where
  available : Rat := 0
  held : Rat := 0
  locked : Bool := false
deriving DecidableEq

/-- Mirror of `Account.total` (a derived property). -/
def Account.total (a : Account) : Rat :=
  a.available + a.held

/-- The mutable state of `PaymentsEngine`: ledger dict, disputed-id list,
clients dict (client id to account). -/
structure EngineState where
  deposits_withdrawals : List (Nat × Transaction)
  disputed_deposits_ids : List Nat
  clients : List (Nat × Account)
deriving DecidableEq

/-- The state of a fresh `PaymentsEngine` (`__init__`): all containers empty. -/
def initState : EngineState :=
  ⟨[], [], []⟩

/-- Dict lookup `self._deposits_withdrawals[txid]` as an option (first
binding whose key matches). -/
def lookupTx (s : EngineState) (txid : Nat) : Option Transaction :=
  (s.deposits_withdrawals.find? (fun p => p.1 == txid)).map (·.2)

/-- The account of a client, default-initialized when the client is absent
(matching `self._clients.setdefault(cid, Client(cid)).account`). -/
def getAccount (s : EngineState) (cid : Nat) : Account :=
  ((s.clients.find? (fun p => p.1 == cid)).map (·.2)).getD {}

/-- Replace the first binding of `cid` (or append one): the in-place
mutation of `client.account` on the dict entry. -/
def setAccount (cid : Nat) (a : Account) : List (Nat × Account) → List (Nat × Account)
  | [] => [(cid, a)]
  | p :: ps => if p.1 == cid then (cid, a) :: ps else p :: setAccount cid a ps

/-- Apply `f` to the client's account in place. -/
def updateAccount (s : EngineState) (cid : Nat) (f : Account → Account) : EngineState :=
  { s with clients := setAccount cid (f (getAccount s cid)) s.clients }

/-- `self._clients.setdefault(transaction.client_id, Client(...))`: insert a
fresh zero account when the client id is absent. -/
def ensureClient (s : EngineState) (cid : Nat) : EngineState :=
  if (s.clients.find? (fun p => p.1 == cid)).isSome then s
  else { s with clients := s.clients ++ [(cid, {})] }

/-- `self._deposits_withdrawals[transaction.id] = transaction`; callers
insert only after `_is_transaction_unique`, so appending a fresh binding
matches the dict assignment. -/
def recordTx (s : EngineState) (t : Transaction) : EngineState :=
  { s with deposits_withdrawals := s.deposits_withdrawals ++ [(t.id, t)] }

/-- `PaymentsEngine._is_transaction_unique`. -/
def is_transaction_unique (s : EngineState) (txid : Nat) : Bool :=
  (lookupTx s txid).isNone

/-- `PaymentsEngine._is_under_dispute`. -/
def is_under_dispute (s : EngineState) (txid : Nat) : Bool :=
  s.disputed_deposits_ids.contains txid

/-- `PaymentsEngine._is_transaction_disputable`. -/
def is_transaction_disputable (s : EngineState) (txid : Nat) : Bool :=
  (lookupTx s txid).isSome && !(is_under_dispute s txid)

/-- `PaymentsEngine._are_enough_funds`. -/
def are_enough_funds (amount : Rat) (acc : Account) : Bool :=
  decide (amount ≤ acc.available)

/-- `TransactionValidator.is_valid`: kind validity is enforced by the
inductive type; `_is_greater_than_zero` requires a positive amount for
deposits and withdrawals only. -/
def is_valid (t : Transaction) : Bool :=
  match t.type with
  | .deposit => decide (0 < t.amount)
  | .withdrawal => decide (0 < t.amount)
  | _ => true

/-- `PaymentsEngine._deposit`: record the ledger entry, credit available. -/
def depositOp (s : EngineState) (t : Transaction) : EngineState :=
  updateAccount (recordTx s t) t.client_id
    (fun a => { a with available := a.available + t.amount })

/-- `PaymentsEngine._withdrawal`: funds check, then record and debit;
refusing logs `Not enough funds available`. -/
def withdrawalOp (s : EngineState) (t : Transaction) : EngineState × List String :=
  if are_enough_funds t.amount (getAccount s t.client_id) then
    (updateAccount (recordTx s t) t.client_id
      (fun a => { a with available := a.available - t.amount }), [])
  else
    (s, ["Not enough funds available"])

/-- `PaymentsEngine._dispute`. The outer condition is
`_is_transaction_disputable and _is_client_correct` (the `none` branch and
the failed test both log `Dispute not possible`); the nested funds check
refuses silently — the source has no `else` on the inner `if`, so no
diagnostic is emitted on that path. -/
def disputeOp (s : EngineState) (t : Transaction) : EngineState × List String :=
  match lookupTx s t.id with
  | some e =>
    if !(is_under_dispute s t.id) && (t.client_id == e.client_id) then
      if are_enough_funds e.amount (getAccount s t.client_id) then
        (updateAccount { s with disputed_deposits_ids := s.disputed_deposits_ids ++ [t.id] }
          t.client_id
          (fun a => { a with available := a.available - e.amount, held := a.held + e.amount }), [])
      else
        (s, [])
    else
      (s, ["Dispute not possible"])
  | none => (s, ["Dispute not possible"])

/-- `PaymentsEngine._resolve`: requires the id under dispute and the
client to match. `List.erase` removes the first occurrence like Python
`list.remove`. In the source, `_is_client_correct` indexes the ledger dict
after the under-dispute test succeeds; in every reachable state a disputed
id has a ledger entry, so the `none` branch is unreachable (in Python that
branch would raise `KeyError`). -/
def resolveOp (s : EngineState) (t : Transaction) : EngineState × List String :=
  if is_under_dispute s t.id then
    match lookupTx s t.id with
    | some e =>
      if t.client_id == e.client_id then
        (updateAccount { s with disputed_deposits_ids := s.disputed_deposits_ids.erase t.id }
          t.client_id
          (fun a => { a with held := a.held - e.amount, available := a.available + e.amount }), [])
      else
        (s, ["Resolve not possible"])
    | none => (s, ["Resolve not possible"])
  else
    (s, ["Resolve not possible"])

/-- `PaymentsEngine._chargeback`: like resolve, but the debited held funds
are not restored to available and the account is locked; there is no check
that `held` covers the amount. The `none` branch is unreachable exactly as
for `resolveOp`. -/
def chargebackOp (s : EngineState) (t : Transaction) : EngineState × List String :=
  if is_under_dispute s t.id then
    match lookupTx s t.id with
    | some e =>
      if t.client_id == e.client_id then
        (updateAccount { s with disputed_deposits_ids := s.disputed_deposits_ids.erase t.id }
          t.client_id
          (fun a => { a with held := a.held - e.amount, locked := true }), [])
      else
        (s, ["Chargeback not possible"])
    | none => (s, ["Chargeback not possible"])
  else
    (s, ["Chargeback not possible"])

/-- `PaymentsEngine._handle_transaction`: resolve (or create) the client,
refuse everything on a locked account, otherwise dispatch on the kind.
The second component collects the `logging.error` diagnostics emitted. -/
def handle_transaction (s : EngineState) (t : Transaction) : EngineState × List String :=
  let s0 := ensureClient s t.client_id
  if !(getAccount s0 t.client_id).locked then
    match t.type with
    | .deposit =>
      if is_transaction_unique s0 t.id then (depositOp s0 t, [])
      else (s0, ["Duplicated transaction id"])
    | .withdrawal =>
      if is_transaction_unique s0 t.id then withdrawalOp s0 t
      else (s0, ["Duplicated transaction id"])
    | .dispute => disputeOp s0 t
    | .resolve => resolveOp s0 t
    | .chargeback => chargebackOp s0 t
  else
    (s0, ["Client account is locked, could not perform operation"])

/-- One record through the pipeline: `TransactionsCreator.get` yields the
record only when the validator accepts it, then the engine handles it. -/
def processRecord (s : EngineState) (t : Transaction) : EngineState :=
  if is_valid t then (handle_transaction s t).1 else s

/-- `PaymentsEngine.run`'s transaction loop over an input list. -/
def runEngine (s : EngineState) (ts : List Transaction) : EngineState :=
  ts.foldl processRecord s

/-- A state the engine can actually be in after processing some input. -/
def Reachable (s : EngineState) : Prop :=
  ∃ ts, runEngine initState ts = s

/-- Refusal leaves every observable state component intact: same ledger,
same active disputes, same balances and lock flag for every client. -/
def Unchanged (s s' : EngineState) : Prop :=
  s'.deposits_withdrawals = s.deposits_withdrawals ∧
  s'.disputed_deposits_ids = s.disputed_deposits_ids ∧
  ∀ c, getAccount s' c = getAccount s c

/-- Acceptance condition of a deposit on an unlocked account: a unique id. -/
def deposit_ok (s : EngineState) (t : Transaction) : Bool :=
  is_transaction_unique s t.id

/-- Acceptance condition of a withdrawal on an unlocked account: unique id
and sufficient available funds. -/
def withdrawal_ok (s : EngineState) (t : Transaction) : Bool :=
  is_transaction_unique s t.id && are_enough_funds t.amount (getAccount s t.client_id)

/-- Acceptance condition of a dispute on an unlocked account: a ledger
entry exists, its client matches, the id is not already under dispute, and
available funds cover the entry amount. -/
def dispute_ok (s : EngineState) (t : Transaction) : Bool :=
  match lookupTx s t.id with
  | some e =>
    !(is_under_dispute s t.id) && (t.client_id == e.client_id) &&
      are_enough_funds e.amount (getAccount s t.client_id)
  | none => false

/-- Acceptance condition of a resolve on an unlocked account: the id is
under active dispute and the entry's client matches. -/
def resolve_ok (s : EngineState) (t : Transaction) : Bool :=
  is_under_dispute s t.id &&
    (match lookupTx s t.id with
     | some e => t.client_id == e.client_id
     | none => false)

/-- Acceptance condition of a chargeback: identical to resolve's. -/
def chargeback_ok (s : EngineState) (t : Transaction) : Bool :=
  resolve_ok s t

/-- A record is accepted (mutates the state) exactly when the account is
unlocked and the kind's acceptance condition holds. -/
def accepts (s : EngineState) (t : Transaction) : Bool :=
  !(getAccount s t.client_id).locked &&
    (match t.type with
     | .deposit => deposit_ok s t
     | .withdrawal => withdrawal_ok s t
     | .dispute => dispute_ok s t
     | .resolve => resolve_ok s t
     | .chargeback => chargeback_ok s t)

/-- The one refusal path that emits no diagnostic: a dispute on an
unlocked account that passes the disputability and client checks but
fails the available-funds check (the inner `if` of `_dispute` has no
`else`, so nothing is logged). -/
def silentRefusal (s : EngineState) (t : Transaction) : Bool :=
  !(getAccount s t.client_id).locked && (t.type == .dispute) &&
    (match lookupTx s t.id with
     | some e =>
       !(is_under_dispute s t.id) && (t.client_id == e.client_id) &&
         !(are_enough_funds e.amount (getAccount s t.client_id))
     | none => false)

/-- The amount of the ledger entry for a transaction id (0 when absent;
used only where the entry is known to exist). -/
def entry_amount (s : EngineState) (txid : Nat) : Rat :=
  ((lookupTx s txid).map Transaction.amount).getD 0

/-- The owning client of the ledger entry for a transaction id. -/
def entry_client (s : EngineState) (txid : Nat) : Option Nat :=
  (lookupTx s txid).map Transaction.client_id

/-- The amount a withdrawal or dispute would subtract from available:
the record's own amount for a withdrawal, the referenced ledger entry's
amount for a dispute. -/
def debitAmount (s : EngineState) (t : Transaction) : Rat :=
  match t.type with
  | .withdrawal => t.amount
  | .dispute => entry_amount s t.id
  | _ => 0

/-- Sum of the ledger-entry amounts of the ids in `ids` whose entry
belongs to client `cid`. -/
def heldSumIds (s : EngineState) (cid : Nat) (ids : List Nat) : Rat :=
  ((ids.filter (fun txid => entry_client s txid == some cid)).map (entry_amount s)).sum

/-- Sum of the ledger-entry amounts of the client's currently active
disputes. -/
def heldSum (s : EngineState) (cid : Nat) : Rat :=
  heldSumIds s cid s.disputed_deposits_ids

/-- The inductive invariant of the engine state: the active-dispute list
has no duplicates, every disputed id has a ledger entry, every ledger
amount is positive (the validator admits only positive deposit and
withdrawal amounts), and each client's held balance is the sum of that
client's actively disputed amounts. -/
structure WF (s : EngineState) : Prop where
  nodup : s.disputed_deposits_ids.Nodup
  disputed_has_entry : ∀ txid ∈ s.disputed_deposits_ids, (lookupTx s txid).isSome
  amounts_pos : ∀ p ∈ s.deposits_withdrawals, 0 < p.2.amount
  held_eq : ∀ c, (getAccount s c).held = heldSum s c

/-- Fixture: a deposit of 10 by client 1, transaction id 100. -/
def txD1 : Transaction :=
  ⟨.deposit, 1, 100, 10⟩

/-- Fixture: a withdrawal of 6 by client 1, transaction id 101. -/
def txW1 : Transaction :=
  ⟨.withdrawal, 1, 101, 6⟩

/-- Fixture: client 1 disputes transaction 100. -/
def txDis1 : Transaction :=
  ⟨.dispute, 1, 100, 0⟩

/-- Fixture: client 1 resolves transaction 100. -/
def txRes1 : Transaction :=
  ⟨.resolve, 1, 100, 0⟩

/-- Fixture: client 1 charges back transaction 100. -/
def txCb1 : Transaction :=
  ⟨.chargeback, 1, 100, 0⟩

/-- Fixture state: one accepted deposit (client 1 has 10 available). -/
def sample1 : EngineState :=
  runEngine initState [txD1]

/-- Fixture state: deposit then withdrawal (client 1 has 4 available),
so the deposit's dispute fails the funds check. -/
def sample2 : EngineState :=
  runEngine initState [txD1, txW1]

/-- Fixture state: deposit then dispute (client 1 has 10 held). -/
def sampleDisputed : EngineState :=
  runEngine initState [txD1, txDis1]

/-- Fixture: a second deposit of 20 by client 1, transaction id 101. -/
def txD2 : Transaction :=
  ⟨.deposit, 1, 101, 20⟩

/-- Fixture: a withdrawal of 99 by client 1, transaction id 102. -/
def txWbig : Transaction :=
  ⟨.withdrawal, 1, 102, 99⟩

/-- Fixture state: deposit, dispute, chargeback (client 1 locked). -/
def sampleLocked : EngineState :=
  runEngine initState [txD1, txDis1, txCb1]

/-! ### Basic lemmas about the state helpers -/

@[simp]
theorem deposits_ensureClient (s : EngineState) (cid : Nat) :
    (ensureClient s cid).deposits_withdrawals = s.deposits_withdrawals := by
  unfold ensureClient
  split <;> rfl

@[simp]
theorem disputed_ensureClient (s : EngineState) (cid : Nat) :
    (ensureClient s cid).disputed_deposits_ids = s.disputed_deposits_ids := by
  unfold ensureClient
  split <;> rfl

@[simp]
theorem lookupTx_ensureClient (s : EngineState) (cid txid : Nat) :
    lookupTx (ensureClient s cid) txid = lookupTx s txid := by
  unfold lookupTx
  rw [deposits_ensureClient]

@[simp]
theorem getAccount_ensureClient (s : EngineState) (cid c : Nat) :
    getAccount (ensureClient s cid) c = getAccount s c := by
  unfold ensureClient
  split
  · rfl
  · unfold getAccount
    simp only [List.find?_append]
    cases hf : s.clients.find? (fun p => p.1 == c) with
    | some p => simp
    | none =>
      simp only [Option.none_or, Option.map_none']
      cases h2 : List.find? (fun p => p.1 == c) [(cid, ({} : Account))] with
      | none => simp
      | some q =>
        have hq := List.find?_some h2
        have hm := List.mem_of_find?_eq_some h2
        simp only [List.mem_singleton] at hm
        subst hm
        simp

@[simp]
theorem is_under_dispute_ensureClient (s : EngineState) (cid txid : Nat) :
    is_under_dispute (ensureClient s cid) txid = is_under_dispute s txid := by
  unfold is_under_dispute
  rw [disputed_ensureClient]

@[simp]
theorem deposits_updateAccount (s : EngineState) (cid : Nat) (f : Account → Account) :
    (updateAccount s cid f).deposits_withdrawals = s.deposits_withdrawals := rfl

@[simp]
theorem disputed_updateAccount (s : EngineState) (cid : Nat) (f : Account → Account) :
    (updateAccount s cid f).disputed_deposits_ids = s.disputed_deposits_ids := rfl

@[simp]
theorem lookupTx_updateAccount (s : EngineState) (cid txid : Nat) (f : Account → Account) :
    lookupTx (updateAccount s cid f) txid = lookupTx s txid := rfl

@[simp]
theorem clients_recordTx (s : EngineState) (t : Transaction) :
    (recordTx s t).clients = s.clients := rfl

@[simp]
theorem disputed_recordTx (s : EngineState) (t : Transaction) :
    (recordTx s t).disputed_deposits_ids = s.disputed_deposits_ids := rfl

@[simp]
theorem getAccount_recordTx (s : EngineState) (t : Transaction) (c : Nat) :
    getAccount (recordTx s t) c = getAccount s c := rfl

@[simp]
theorem getAccount_withDisputed (s : EngineState) (ids : List Nat) (c : Nat) :
    getAccount { s with disputed_deposits_ids := ids } c = getAccount s c := rfl

@[simp]
theorem lookupTx_withDisputed (s : EngineState) (ids : List Nat) (txid : Nat) :
    lookupTx { s with disputed_deposits_ids := ids } txid = lookupTx s txid := rfl

@[simp]
theorem lookupTx_mk (dw : List (Nat × Transaction)) (ids : List Nat)
    (cl : List (Nat × Account)) (txid : Nat) :
    lookupTx ⟨dw, ids, cl⟩ txid = (dw.find? (fun p => p.1 == txid)).map (·.2) := rfl

theorem find?_setAccount_self (cid : Nat) (a : Account) (l : List (Nat × Account)) :
    (setAccount cid a l).find? (fun p => p.1 == cid) = some (cid, a) := by
  induction l with
  | nil => simp [setAccount]
  | cons p ps ih =>
    by_cases h : p.1 = cid
    · simp [setAccount, h]
    · simp only [setAccount]
      rw [if_neg (by simpa using h)]
      rw [List.find?_cons_of_neg _ (by simpa using h)]
      exact ih

theorem find?_setAccount_ne (cid c : Nat) (hne : c ≠ cid) (a : Account)
    (l : List (Nat × Account)) :
    (setAccount cid a l).find? (fun p => p.1 == c) = l.find? (fun p => p.1 == c) := by
  induction l with
  | nil => simp [setAccount, Ne.symm hne]
  | cons p ps ih =>
    by_cases h : p.1 = cid
    · simp only [setAccount]
      rw [if_pos (by simpa using h)]
      rw [List.find?_cons_of_neg _ (by simpa using Ne.symm hne)]
      rw [List.find?_cons_of_neg _ (by simp [h, Ne.symm hne])]
    · simp only [setAccount]
      rw [if_neg (by simpa using h)]
      by_cases hc : p.1 = c
      · rw [List.find?_cons_of_pos _ (by simpa using hc),
          List.find?_cons_of_pos _ (by simpa using hc)]
      · rw [List.find?_cons_of_neg _ (by simpa using hc),
          List.find?_cons_of_neg _ (by simpa using hc)]
        exact ih

@[simp]
theorem getAccount_updateAccount_self (s : EngineState) (cid : Nat) (f : Account → Account) :
    getAccount (updateAccount s cid f) cid = f (getAccount s cid) := by
  unfold getAccount updateAccount
  simp [find?_setAccount_self]
  rfl

theorem getAccount_updateAccount_ne (s : EngineState) (cid c : Nat) (hne : c ≠ cid)
    (f : Account → Account) :
    getAccount (updateAccount s cid f) c = getAccount s c := by
  unfold getAccount updateAccount
  simp [find?_setAccount_ne cid c hne]

theorem unchanged_ensureClient (s : EngineState) (cid : Nat) :
    Unchanged s (ensureClient s cid) := by
  refine ⟨deposits_ensureClient s cid, disputed_ensureClient s cid, fun c => ?_⟩
  exact getAccount_ensureClient s cid c

theorem unchanged_refl (s : EngineState) : Unchanged s s :=
  ⟨rfl, rfl, fun _ => rfl⟩

theorem lookupTx_recordTx_of_isSome (s : EngineState) (t : Transaction) (txid : Nat)
    (h : (lookupTx s txid).isSome) :
    lookupTx (recordTx s t) txid = lookupTx s txid := by
  unfold lookupTx recordTx at *
  cases hf : s.deposits_withdrawals.find? (fun p => p.1 == txid) with
  | none => rw [hf] at h; simp at h
  | some p => simp [List.find?_append, hf]

theorem lookupTx_recordTx_of_some (s : EngineState) (t : Transaction) (txid : Nat)
    (e : Transaction) (h : lookupTx s txid = some e) :
    lookupTx (recordTx s t) txid = some e := by
  rw [lookupTx_recordTx_of_isSome s t txid (by rw [h]; rfl)]
  exact h

theorem lookupTx_recordTx_self (s : EngineState) (t : Transaction)
    (h : lookupTx s t.id = none) :
    lookupTx (recordTx s t) t.id = some t := by
  unfold lookupTx recordTx at *
  cases hf : s.deposits_withdrawals.find? (fun p => p.1 == t.id) with
  | some p => rw [hf] at h; simp at h
  | none => simp [List.find?_append, hf]

/-- Every step either leaves the ledger dict alone or appends one fresh
binding for the handled record's id: no binding is ever removed or
overwritten in place. -/
theorem ledger_handle_transaction (s : EngineState) (t : Transaction) :
    (handle_transaction s t).1.deposits_withdrawals = s.deposits_withdrawals ∨
    (handle_transaction s t).1.deposits_withdrawals =
      s.deposits_withdrawals ++ [(t.id, t)] := by
  simp only [handle_transaction, depositOp, withdrawalOp, disputeOp, resolveOp, chargebackOp]
  repeat' split
  all_goals simp [recordTx]

theorem lookupTx_handle_transaction_of_some (s : EngineState) (t : Transaction)
    (txid : Nat) (e : Transaction) (h : lookupTx s txid = some e) :
    lookupTx (handle_transaction s t).1 txid = some e := by
  rcases ledger_handle_transaction s t with hd | hd
  · unfold lookupTx at *
    rw [hd]
    exact h
  · unfold lookupTx at *
    rw [hd]
    cases hf : s.deposits_withdrawals.find? (fun p => p.1 == txid) with
    | none => rw [hf] at h; simp at h
    | some p => rw [hf] at h; simp [List.find?_append, hf, h]

theorem lookupTx_processRecord_of_some (s : EngineState) (t : Transaction)
    (txid : Nat) (e : Transaction) (h : lookupTx s txid = some e) :
    lookupTx (processRecord s t) txid = some e := by
  unfold processRecord
  split
  · exact lookupTx_handle_transaction_of_some s t txid e h
  · exact h

/-! ### Lemmas about the held-funds sum -/

theorem heldSumIds_congr (s s' : EngineState) (c : Nat) (ids : List Nat)
    (h : ∀ txid ∈ ids, lookupTx s' txid = lookupTx s txid) :
    heldSumIds s' c ids = heldSumIds s c ids := by
  unfold heldSumIds
  have hf : ids.filter (fun txid => entry_client s' txid == some c)
      = ids.filter (fun txid => entry_client s txid == some c) :=
    List.filter_congr (fun x hx => by simp [entry_client, h x hx])
  rw [hf]
  refine congrArg _ (List.map_congr_left fun x hx => ?_)
  simp [entry_amount, h x (List.mem_of_mem_filter hx)]

theorem heldSumIds_append_one (s : EngineState) (c : Nat) (ids : List Nat) (txid : Nat) :
    heldSumIds s c (ids ++ [txid]) =
      heldSumIds s c ids +
        (if entry_client s txid == some c then entry_amount s txid else 0) := by
  unfold heldSumIds
  rw [List.filter_append, List.map_append, List.sum_append]
  by_cases h : (entry_client s txid == some c) = true <;> simp [h]

theorem heldSumIds_cons (s : EngineState) (c : Nat) (txid : Nat) (ids : List Nat) :
    heldSumIds s c (txid :: ids) =
      (if entry_client s txid == some c then entry_amount s txid else 0) +
        heldSumIds s c ids := by
  unfold heldSumIds
  by_cases h : (entry_client s txid == some c) = true <;> simp [List.filter_cons, h]

theorem heldSumIds_perm (s : EngineState) (c : Nat) {ids ids' : List Nat}
    (h : ids.Perm ids') :
    heldSumIds s c ids = heldSumIds s c ids' := by
  unfold heldSumIds
  exact ((h.filter _).map _).sum_eq

theorem heldSumIds_erase (s : EngineState) (c : Nat) (txid : Nat) (ids : List Nat)
    (h : txid ∈ ids) :
    heldSumIds s c ids =
      (if entry_client s txid == some c then entry_amount s txid else 0) +
        heldSumIds s c (ids.erase txid) := by
  rw [heldSumIds_perm s c (List.perm_cons_erase h), heldSumIds_cons]

theorem heldSumIds_nonneg (s : EngineState) (c : Nat) (ids : List Nat)
    (hpos : ∀ txid ∈ ids, 0 < entry_amount s txid) :
    0 ≤ heldSumIds s c ids := by
  unfold heldSumIds
  apply List.sum_nonneg
  intro x hx
  simp only [List.mem_map] at hx
  obtain ⟨txid, htx, rfl⟩ := hx
  exact le_of_lt (hpos txid (List.mem_of_mem_filter htx))

theorem mem_of_is_under_dispute (s : EngineState) (txid : Nat)
    (h : is_under_dispute s txid = true) :
    txid ∈ s.disputed_deposits_ids := by
  simpa [is_under_dispute] using h

theorem not_mem_of_not_under_dispute (s : EngineState) (txid : Nat)
    (h : is_under_dispute s txid = false) :
    txid ∉ s.disputed_deposits_ids := by
  simpa [is_under_dispute] using h

theorem entry_client_eq (s : EngineState) (txid : Nat) (e : Transaction)
    (h : lookupTx s txid = some e) :
    entry_client s txid = some e.client_id := by
  simp [entry_client, h]

theorem entry_amount_eq (s : EngineState) (txid : Nat) (e : Transaction)
    (h : lookupTx s txid = some e) :
    entry_amount s txid = e.amount := by
  simp [entry_amount, h]

theorem heldSum_congr (s s' : EngineState) (c : Nat)
    (hd : s'.disputed_deposits_ids = s.disputed_deposits_ids)
    (h : ∀ txid ∈ s.disputed_deposits_ids, lookupTx s' txid = lookupTx s txid) :
    heldSum s' c = heldSum s c := by
  unfold heldSum
  rw [hd]
  exact heldSumIds_congr s s' c _ h

theorem entry_amount_pos (s : EngineState) (txid : Nat)
    (hpos : ∀ p ∈ s.deposits_withdrawals, 0 < p.2.amount)
    (h : (lookupTx s txid).isSome) :
    0 < entry_amount s txid := by
  unfold entry_amount lookupTx at *
  cases hf : s.deposits_withdrawals.find? (fun p => p.1 == txid) with
  | none => rw [hf] at h; simp at h
  | some p =>
    have hm := List.mem_of_find?_eq_some hf
    simpa [hf] using hpos p hm

/-! ### Preservation of the invariant -/

theorem wf_initState : WF initState := by
  constructor
  · exact List.nodup_nil
  · intro txid htx
    simp [initState] at htx
  · intro p hp
    simp [initState] at hp
  · intro c
    simp [initState, getAccount, heldSum, heldSumIds, List.find?]

theorem wf_ensureClient (s : EngineState) (cid : Nat) (hw : WF s) :
    WF (ensureClient s cid) := by
  constructor
  · rw [disputed_ensureClient]
    exact hw.nodup
  · intro txid htx
    rw [disputed_ensureClient] at htx
    rw [lookupTx_ensureClient]
    exact hw.disputed_has_entry txid htx
  · intro p hp
    rw [deposits_ensureClient] at hp
    exact hw.amounts_pos p hp
  · intro c
    rw [getAccount_ensureClient]
    rw [heldSum_congr s (ensureClient s cid) c (disputed_ensureClient s cid)
      (fun txid _ => lookupTx_ensureClient s cid txid)]
    exact hw.held_eq c

theorem wf_depositOp (s : EngineState) (t : Transaction) (hpos : 0 < t.amount)
    (hu : lookupTx s t.id = none) (hw : WF s) : WF (depositOp s t) := by
  have hlk : ∀ txid ∈ s.disputed_deposits_ids,
      lookupTx (depositOp s t) txid = lookupTx s txid := by
    intro txid htx
    unfold depositOp
    rw [lookupTx_updateAccount]
    exact lookupTx_recordTx_of_isSome s t txid (hw.disputed_has_entry txid htx)
  constructor
  · simpa [depositOp] using hw.nodup
  · intro txid htx
    simp only [depositOp, disputed_updateAccount, disputed_recordTx] at htx
    rw [hlk txid htx]
    exact hw.disputed_has_entry txid htx
  · intro p hp
    simp only [depositOp, deposits_updateAccount, recordTx, List.mem_append,
      List.mem_singleton] at hp
    rcases hp with hp | hp
    · exact hw.amounts_pos p hp
    · rw [hp]
      exact hpos
  · intro c
    have hsum : heldSum (depositOp s t) c = heldSum s c :=
      heldSum_congr s (depositOp s t) c (by simp [depositOp]) hlk
    rw [hsum]
    unfold depositOp
    by_cases hc : c = t.client_id
    · subst hc
      rw [getAccount_updateAccount_self, getAccount_recordTx]
      exact hw.held_eq t.client_id
    · rw [getAccount_updateAccount_ne _ _ _ hc, getAccount_recordTx]
      exact hw.held_eq c

theorem wf_withdrawalOp_accept (s : EngineState) (t : Transaction) (hpos : 0 < t.amount)
    (hu : lookupTx s t.id = none)
    (hf : are_enough_funds t.amount (getAccount s t.client_id) = true)
    (hw : WF s) : WF (withdrawalOp s t).1 := by
  have hres : (withdrawalOp s t).1 =
      updateAccount (recordTx s t) t.client_id
        (fun a => { a with available := a.available - t.amount }) := by
    unfold withdrawalOp
    rw [if_pos hf]
  have hlk : ∀ txid ∈ s.disputed_deposits_ids,
      lookupTx (withdrawalOp s t).1 txid = lookupTx s txid := by
    intro txid htx
    rw [hres, lookupTx_updateAccount]
    exact lookupTx_recordTx_of_isSome s t txid (hw.disputed_has_entry txid htx)
  constructor
  · rw [hres]
    simpa using hw.nodup
  · intro txid htx
    rw [hres] at htx
    simp only [disputed_updateAccount, disputed_recordTx] at htx
    rw [hlk txid htx]
    exact hw.disputed_has_entry txid htx
  · intro p hp
    rw [hres] at hp
    simp only [deposits_updateAccount, recordTx, List.mem_append, List.mem_singleton] at hp
    rcases hp with hp | hp
    · exact hw.amounts_pos p hp
    · rw [hp]
      exact hpos
  · intro c
    have hsum : heldSum (withdrawalOp s t).1 c = heldSum s c :=
      heldSum_congr s (withdrawalOp s t).1 c (by rw [hres]; simp) hlk
    rw [hsum, hres]
    by_cases hc : c = t.client_id
    · subst hc
      rw [getAccount_updateAccount_self, getAccount_recordTx]
      exact hw.held_eq t.client_id
    · rw [getAccount_updateAccount_ne _ _ _ hc, getAccount_recordTx]
      exact hw.held_eq c

theorem wf_disputeAccept (s : EngineState) (t : Transaction) (e : Transaction)
    (hE : lookupTx s t.id = some e) (hnd : is_under_dispute s t.id = false)
    (hcl : t.client_id = e.client_id) (hw : WF s) :
    WF (updateAccount { s with disputed_deposits_ids := s.disputed_deposits_ids ++ [t.id] }
      t.client_id
      (fun a => { a with available := a.available - e.amount, held := a.held + e.amount })) := by
  have hmem : t.id ∉ s.disputed_deposits_ids := not_mem_of_not_under_dispute s t.id hnd
  constructor
  · simp only [disputed_updateAccount]
    simp [List.nodup_append, hw.nodup, hmem]
  · intro txid htx
    simp only [disputed_updateAccount, List.mem_append, List.mem_singleton] at htx
    rw [lookupTx_updateAccount, lookupTx_withDisputed]
    rcases htx with htx | htx
    · exact hw.disputed_has_entry txid htx
    · rw [htx, hE]
      rfl
  · intro p hp
    simp only [deposits_updateAccount] at hp
    exact hw.amounts_pos p hp
  · intro c
    have hdisp : (updateAccount { s with disputed_deposits_ids := s.disputed_deposits_ids ++ [t.id] }
        t.client_id
        (fun a => { a with available := a.available - e.amount, held := a.held + e.amount })).disputed_deposits_ids
        = s.disputed_deposits_ids ++ [t.id] := rfl
    unfold heldSum
    rw [hdisp]
    have hids : heldSumIds
        (updateAccount { s with disputed_deposits_ids := s.disputed_deposits_ids ++ [t.id] }
          t.client_id
          (fun a => { a with available := a.available - e.amount, held := a.held + e.amount })) c
        (s.disputed_deposits_ids ++ [t.id]) = heldSumIds s c (s.disputed_deposits_ids ++ [t.id]) :=
      heldSumIds_congr s _ c _ (fun txid _ => rfl)
    rw [hids, heldSumIds_append_one]
    by_cases hc : c = t.client_id
    · subst hc
      rw [getAccount_updateAccount_self, getAccount_withDisputed]
      have hcc : (entry_client s t.id == some t.client_id) = true := by
        rw [entry_client_eq s t.id e hE, ← hcl]
        simp
      rw [if_pos hcc, entry_amount_eq s t.id e hE]
      have hbase := hw.held_eq t.client_id
      unfold heldSum at hbase
      simp [hbase]
    · rw [getAccount_updateAccount_ne _ _ _ hc, getAccount_withDisputed]
      have : (entry_client s t.id == some c) = false := by
        rw [entry_client_eq s t.id e hE, ← hcl]
        simp [Ne.symm hc]
      rw [if_neg (by simp [this]), add_zero]
      exact hw.held_eq c

theorem wf_resolveAccept (s : EngineState) (t : Transaction) (e : Transaction)
    (hE : lookupTx s t.id = some e) (hud : is_under_dispute s t.id = true)
    (hcl : t.client_id = e.client_id) (hw : WF s)
    (f : Account → Account)
    (hheld : ∀ a, (f a).held = a.held - e.amount) :
    WF (updateAccount { s with disputed_deposits_ids := s.disputed_deposits_ids.erase t.id }
      t.client_id f) := by
  have hmem : t.id ∈ s.disputed_deposits_ids := mem_of_is_under_dispute s t.id hud
  constructor
  · simp only [disputed_updateAccount]
    exact hw.nodup.erase t.id
  · intro txid htx
    simp only [disputed_updateAccount] at htx
    rw [lookupTx_updateAccount, lookupTx_withDisputed]
    exact hw.disputed_has_entry txid (List.mem_of_mem_erase htx)
  · intro p hp
    simp only [deposits_updateAccount] at hp
    exact hw.amounts_pos p hp
  · intro c
    have herase := heldSumIds_erase s c t.id s.disputed_deposits_ids hmem
    have hids : heldSumIds
        (updateAccount { s with disputed_deposits_ids := s.disputed_deposits_ids.erase t.id }
          t.client_id f) c (s.disputed_deposits_ids.erase t.id)
        = heldSumIds s c (s.disputed_deposits_ids.erase t.id) :=
      heldSumIds_congr s _ c _ (fun txid _ => rfl)
    unfold heldSum
    rw [show (updateAccount { s with disputed_deposits_ids := s.disputed_deposits_ids.erase t.id }
        t.client_id f).disputed_deposits_ids = s.disputed_deposits_ids.erase t.id from rfl]
    rw [hids]
    by_cases hc : c = t.client_id
    · subst hc
      rw [getAccount_updateAccount_self, getAccount_withDisputed, hheld]
      have hcc : (entry_client s t.id == some t.client_id) = true := by
        rw [entry_client_eq s t.id e hE, ← hcl]
        simp
      rw [if_pos hcc, entry_amount_eq s t.id e hE] at herase
      have hbase := hw.held_eq t.client_id
      unfold heldSum at hbase
      rw [hbase, herase]
      ring
    · rw [getAccount_updateAccount_ne _ _ _ hc, getAccount_withDisputed]
      have hcc : (entry_client s t.id == some c) = false := by
        rw [entry_client_eq s t.id e hE, ← hcl]
        simp [Ne.symm hc]
      rw [hcc] at herase
      simp only [Bool.false_eq_true, if_false, zero_add] at herase
      have hbase := hw.held_eq c
      unfold heldSum at hbase
      rw [hbase, herase]

/-! ### Shape of a handled transaction -/

theorem find?_clients_isSome_of_locked (s : EngineState) (cid : Nat)
    (hl : (getAccount s cid).locked = true) :
    (s.clients.find? (fun p => p.1 == cid)).isSome = true := by
  unfold getAccount at hl
  cases hf : s.clients.find? (fun p => p.1 == cid) with
  | some p => simp
  | none => rw [hf] at hl; simp at hl

theorem ensureClient_eq_of_locked (s : EngineState) (cid : Nat)
    (hl : (getAccount s cid).locked = true) :
    ensureClient s cid = s := by
  unfold ensureClient
  rw [if_pos (find?_clients_isSome_of_locked s cid hl)]

theorem handle_eq_of_locked (s : EngineState) (t : Transaction)
    (hl : (getAccount s t.client_id).locked = true) :
    handle_transaction s t =
      (s, ["Client account is locked, could not perform operation"]) := by
  simp only [handle_transaction]
  rw [ensureClient_eq_of_locked s t.client_id hl, hl]
  simp

@[simp]
theorem is_transaction_unique_ensureClient (s : EngineState) (cid txid : Nat) :
    is_transaction_unique (ensureClient s cid) txid = is_transaction_unique s txid := by
  simp [is_transaction_unique]

theorem handle_eq_of_unlocked (s : EngineState) (t : Transaction)
    (hl : (getAccount s t.client_id).locked = false) :
    handle_transaction s t =
      match t.type with
      | .deposit =>
        if is_transaction_unique s t.id then (depositOp (ensureClient s t.client_id) t, [])
        else (ensureClient s t.client_id, ["Duplicated transaction id"])
      | .withdrawal =>
        if is_transaction_unique s t.id then withdrawalOp (ensureClient s t.client_id) t
        else (ensureClient s t.client_id, ["Duplicated transaction id"])
      | .dispute => disputeOp (ensureClient s t.client_id) t
      | .resolve => resolveOp (ensureClient s t.client_id) t
      | .chargeback => chargebackOp (ensureClient s t.client_id) t := by
  simp only [handle_transaction, getAccount_ensureClient, hl,
    is_transaction_unique_ensureClient]
  simp

theorem wf_disputeOp (s : EngineState) (t : Transaction) (hw : WF s) :
    WF (disputeOp s t).1 := by
  unfold disputeOp
  cases hE : lookupTx s t.id with
  | none => exact hw
  | some e =>
    dsimp only
    by_cases h1 : (!is_under_dispute s t.id && (t.client_id == e.client_id)) = true
    · rw [if_pos h1]
      by_cases h2 : are_enough_funds e.amount (getAccount s t.client_id) = true
      · rw [if_pos h2]
        rw [Bool.and_eq_true, Bool.not_eq_true'] at h1
        exact wf_disputeAccept s t e hE h1.1 (by simpa using h1.2) hw
      · rw [if_neg h2]
        exact hw
    · rw [if_neg h1]
      exact hw

theorem wf_resolveOp (s : EngineState) (t : Transaction) (hw : WF s) :
    WF (resolveOp s t).1 := by
  unfold resolveOp
  by_cases hud : is_under_dispute s t.id = true
  · rw [if_pos hud]
    cases hE : lookupTx s t.id with
    | none => exact hw
    | some e =>
      dsimp only
      by_cases hcl : (t.client_id == e.client_id) = true
      · rw [if_pos hcl]
        exact wf_resolveAccept s t e hE hud (by simpa using hcl) hw
          (fun a => { a with held := a.held - e.amount, available := a.available + e.amount })
          (fun a => rfl)
      · rw [if_neg hcl]
        exact hw
  · rw [if_neg hud]
    exact hw

theorem wf_chargebackOp (s : EngineState) (t : Transaction) (hw : WF s) :
    WF (chargebackOp s t).1 := by
  unfold chargebackOp
  by_cases hud : is_under_dispute s t.id = true
  · rw [if_pos hud]
    cases hE : lookupTx s t.id with
    | none => exact hw
    | some e =>
      dsimp only
      by_cases hcl : (t.client_id == e.client_id) = true
      · rw [if_pos hcl]
        exact wf_resolveAccept s t e hE hud (by simpa using hcl) hw
          (fun a => { a with held := a.held - e.amount, locked := true })
          (fun a => rfl)
      · rw [if_neg hcl]
        exact hw
  · rw [if_neg hud]
    exact hw

theorem wf_handle_transaction (s : EngineState) (t : Transaction)
    (hv : is_valid t = true) (hw : WF s) : WF (handle_transaction s t).1 := by
  by_cases hl : (getAccount s t.client_id).locked = true
  · rw [handle_eq_of_locked s t hl]
    exact hw
  · rw [Bool.not_eq_true] at hl
    rw [handle_eq_of_unlocked s t hl]
    have hw0 : WF (ensureClient s t.client_id) := wf_ensureClient s t.client_id hw
    cases htype : t.type with
    | deposit =>
      dsimp only
      by_cases hu : is_transaction_unique s t.id = true
      · rw [if_pos hu]
        refine wf_depositOp (ensureClient s t.client_id) t ?_ ?_ hw0
        · rw [is_valid, htype] at hv
          simpa using hv
        · rw [lookupTx_ensureClient]
          rw [is_transaction_unique] at hu
          exact Option.isNone_iff_eq_none.mp hu
      · rw [if_neg hu]
        exact hw0
    | withdrawal =>
      dsimp only
      by_cases hu : is_transaction_unique s t.id = true
      · rw [if_pos hu]
        have hpos : 0 < t.amount := by
          rw [is_valid, htype] at hv
          simpa using hv
        have hnone : lookupTx (ensureClient s t.client_id) t.id = none := by
          rw [lookupTx_ensureClient]
          rw [is_transaction_unique] at hu
          exact Option.isNone_iff_eq_none.mp hu
        by_cases hf : are_enough_funds t.amount
            (getAccount (ensureClient s t.client_id) t.client_id) = true
        · exact wf_withdrawalOp_accept (ensureClient s t.client_id) t hpos hnone hf hw0
        · unfold withdrawalOp
          rw [if_neg hf]
          exact hw0
      · rw [if_neg hu]
        exact hw0
    | dispute => exact wf_disputeOp (ensureClient s t.client_id) t hw0
    | resolve => exact wf_resolveOp (ensureClient s t.client_id) t hw0
    | chargeback => exact wf_chargebackOp (ensureClient s t.client_id) t hw0

theorem wf_processRecord (s : EngineState) (t : Transaction) (hw : WF s) :
    WF (processRecord s t) := by
  unfold processRecord
  split
  · exact wf_handle_transaction s t (by assumption) hw
  · exact hw

theorem wf_runEngine (s : EngineState) (ts : List Transaction) (hw : WF s) :
    WF (runEngine s ts) := by
  induction ts generalizing s with
  | nil => exact hw
  | cons t rest ih => exact ih (processRecord s t) (wf_processRecord s t hw)

theorem wf_reachable (s : EngineState) (h : Reachable s) : WF s := by
  obtain ⟨ts, hts⟩ := h
  rw [← hts]
  exact wf_runEngine initState ts wf_initState

/-! ### The claims -/

theorem processRecord_eq_handle (s : EngineState) (t : Transaction)
    (hv : is_valid t = true) :
    processRecord s t = (handle_transaction s t).1 := by
  rw [processRecord, if_pos hv]

theorem is_valid_of_dispute (t : Transaction) (ht : t.type = TransactionType.dispute) :
    is_valid t = true := by
  rw [is_valid, ht]

theorem is_valid_of_resolve (t : Transaction) (ht : t.type = TransactionType.resolve) :
    is_valid t = true := by
  rw [is_valid, ht]

theorem is_valid_of_chargeback (t : Transaction) (ht : t.type = TransactionType.chargeback) :
    is_valid t = true := by
  rw [is_valid, ht]

/-- Claim C1: a Dispute on an unlocked account is accepted exactly when a
ledger entry exists for the referenced id, its client matches, the id is
not already under active dispute, and available covers the entry amount
(`dispute_ok`); acceptance marks the id disputed and moves the entry
amount from available to held, leaving the ledger and all other accounts
alone; refusal leaves every state component unchanged. -/
theorem dispute_spec (s : EngineState) (t : Transaction)
    (ht : t.type = TransactionType.dispute)
    (hl : (getAccount s t.client_id).locked = false) :
    (dispute_ok s t = true →
      (processRecord s t).deposits_withdrawals = s.deposits_withdrawals ∧
      (processRecord s t).disputed_deposits_ids = s.disputed_deposits_ids ++ [t.id] ∧
      t.id ∈ (processRecord s t).disputed_deposits_ids ∧
      getAccount (processRecord s t) t.client_id =
        { getAccount s t.client_id with
            available := (getAccount s t.client_id).available - entry_amount s t.id,
            held := (getAccount s t.client_id).held + entry_amount s t.id } ∧
      (∀ c, c ≠ t.client_id → getAccount (processRecord s t) c = getAccount s c)) ∧
    (dispute_ok s t = false → Unchanged s (processRecord s t)) := by
  rw [processRecord_eq_handle s t (is_valid_of_dispute t ht),
    handle_eq_of_unlocked s t hl, ht]
  dsimp only
  cases hE : lookupTx s t.id with
  | none =>
    constructor
    · intro hok
      rw [dispute_ok, hE] at hok
      cases hok
    · intro _
      unfold disputeOp
      rw [lookupTx_ensureClient, hE]
      exact unchanged_ensureClient s t.client_id
  | some e =>
    constructor
    · intro hok
      simp only [dispute_ok, hE] at hok
      rw [Bool.and_eq_true, Bool.and_eq_true] at hok
      obtain ⟨⟨hud, hcl⟩, hfd⟩ := hok
      rw [Bool.not_eq_true'] at hud
      unfold disputeOp
      rw [lookupTx_ensureClient, hE]
      dsimp only
      rw [if_pos (by simp [hud, hcl]),
        if_pos (by rw [getAccount_ensureClient]; exact hfd)]
      refine ⟨by simp, by simp, by simp, ?_, ?_⟩
      · rw [entry_amount_eq s t.id e hE]
        rw [getAccount_updateAccount_self, getAccount_withDisputed,
          getAccount_ensureClient]
      · intro c hc
        rw [getAccount_updateAccount_ne _ _ _ hc, getAccount_withDisputed,
          getAccount_ensureClient]
    · intro hnok
      simp only [dispute_ok, hE] at hnok
      unfold disputeOp
      rw [lookupTx_ensureClient, hE]
      dsimp only
      by_cases h1 : (!is_under_dispute s t.id && (t.client_id == e.client_id)) = true
      · have hfd : are_enough_funds e.amount (getAccount s t.client_id) = false := by
          cases hfd : are_enough_funds e.amount (getAccount s t.client_id) with
          | false => rfl
          | true => simp [h1, hfd] at hnok
        rw [if_pos (by simpa [is_under_dispute_ensureClient] using h1),
          if_neg (by rw [getAccount_ensureClient, hfd]; simp)]
        exact unchanged_ensureClient s t.client_id
      · rw [if_neg (by simpa [is_under_dispute_ensureClient] using h1)]
        exact unchanged_ensureClient s t.client_id

/-- Claim C2: a validated Withdrawal on an unlocked account is accepted
exactly when its transaction id is not yet in the ledger and available
covers the amount (`withdrawal_ok`); acceptance records the ledger entry
and debits available, leaving disputes and other accounts alone; refusal
leaves every state component unchanged. -/
theorem withdrawal_spec (s : EngineState) (t : Transaction)
    (ht : t.type = TransactionType.withdrawal) (hv : is_valid t = true)
    (hl : (getAccount s t.client_id).locked = false) :
    (withdrawal_ok s t = true →
      lookupTx (processRecord s t) t.id = some t ∧
      (processRecord s t).disputed_deposits_ids = s.disputed_deposits_ids ∧
      getAccount (processRecord s t) t.client_id =
        { getAccount s t.client_id with
            available := (getAccount s t.client_id).available - t.amount } ∧
      (∀ c, c ≠ t.client_id → getAccount (processRecord s t) c = getAccount s c)) ∧
    (withdrawal_ok s t = false → Unchanged s (processRecord s t)) := by
  rw [processRecord_eq_handle s t hv, handle_eq_of_unlocked s t hl, ht]
  dsimp only
  constructor
  · intro hok
    rw [withdrawal_ok, Bool.and_eq_true] at hok
    obtain ⟨hu, hfd⟩ := hok
    rw [if_pos hu]
    unfold withdrawalOp
    rw [if_pos (by rw [getAccount_ensureClient]; exact hfd)]
    have hnone : lookupTx (ensureClient s t.client_id) t.id = none := by
      rw [lookupTx_ensureClient]
      rw [is_transaction_unique] at hu
      exact Option.isNone_iff_eq_none.mp hu
    refine ⟨?_, by simp, ?_, ?_⟩
    · rw [lookupTx_updateAccount]
      exact lookupTx_recordTx_self (ensureClient s t.client_id) t hnone
    · rw [getAccount_updateAccount_self, getAccount_recordTx, getAccount_ensureClient]
    · intro c hc
      rw [getAccount_updateAccount_ne _ _ _ hc, getAccount_recordTx,
        getAccount_ensureClient]
  · intro hnok
    rw [withdrawal_ok] at hnok
    by_cases hu : is_transaction_unique s t.id = true
    · have hfd : are_enough_funds t.amount (getAccount s t.client_id) = false := by
        cases hfd : are_enough_funds t.amount (getAccount s t.client_id) with
        | false => rfl
        | true => rw [hu, hfd] at hnok; cases hnok
      rw [if_pos hu]
      unfold withdrawalOp
      rw [if_neg (by rw [getAccount_ensureClient, hfd]; simp)]
      exact unchanged_ensureClient s t.client_id
    · rw [if_neg hu]
      exact unchanged_ensureClient s t.client_id

/-- Claim C3: a Chargeback on an unlocked account is accepted exactly when
the referenced id is under active dispute and the entry's client matches
(`chargeback_ok` — no check on held); acceptance unmarks the dispute,
debits held by the entry amount and locks the account, leaving the ledger,
the entry's amount in available, and all other accounts alone; refusal
leaves every state component unchanged. -/
theorem chargeback_spec (s : EngineState) (t : Transaction)
    (ht : t.type = TransactionType.chargeback)
    (hl : (getAccount s t.client_id).locked = false)
    (hnd : s.disputed_deposits_ids.Nodup) :
    (chargeback_ok s t = true →
      (processRecord s t).deposits_withdrawals = s.deposits_withdrawals ∧
      (processRecord s t).disputed_deposits_ids = s.disputed_deposits_ids.erase t.id ∧
      is_under_dispute (processRecord s t) t.id = false ∧
      getAccount (processRecord s t) t.client_id =
        { getAccount s t.client_id with
            held := (getAccount s t.client_id).held - entry_amount s t.id,
            locked := true } ∧
      (∀ c, c ≠ t.client_id → getAccount (processRecord s t) c = getAccount s c)) ∧
    (chargeback_ok s t = false → Unchanged s (processRecord s t)) := by
  rw [processRecord_eq_handle s t (is_valid_of_chargeback t ht),
    handle_eq_of_unlocked s t hl, ht]
  dsimp only
  constructor
  · intro hok
    simp only [chargeback_ok, resolve_ok, Bool.and_eq_true] at hok
    obtain ⟨hud, hcl⟩ := hok
    cases hE : lookupTx s t.id with
    | none => rw [hE] at hcl; cases hcl
    | some e =>
      rw [hE] at hcl
      dsimp only at hcl
      unfold chargebackOp
      rw [lookupTx_ensureClient, hE, if_pos (by rw [is_under_dispute_ensureClient]; exact hud)]
      dsimp only
      rw [if_pos hcl]
      dsimp only
      refine ⟨by simp, by simp, ?_, ?_, ?_⟩
      · simp [is_under_dispute, hnd.not_mem_erase]
      · rw [entry_amount_eq s t.id e hE]
        rw [getAccount_updateAccount_self, getAccount_withDisputed,
          getAccount_ensureClient]
      · intro c hc
        rw [getAccount_updateAccount_ne _ _ _ hc, getAccount_withDisputed,
          getAccount_ensureClient]
  · intro hnok
    simp only [chargeback_ok, resolve_ok] at hnok
    unfold chargebackOp
    by_cases hud : is_under_dispute s t.id = true
    · rw [if_pos (by rw [is_under_dispute_ensureClient]; exact hud)]
      cases hE : lookupTx s t.id with
      | none =>
        rw [lookupTx_ensureClient, hE]
        exact unchanged_ensureClient s t.client_id
      | some e =>
        rw [lookupTx_ensureClient, hE]
        dsimp only
        rw [hE] at hnok
        dsimp only at hnok
        rw [hud] at hnok
        simp only [Bool.true_and] at hnok
        rw [if_neg (by simp [hnok])]
        exact unchanged_ensureClient s t.client_id
    · rw [if_neg (by rw [is_under_dispute_ensureClient]; exact hud)]
      exact unchanged_ensureClient s t.client_id

/-- Claim C4: a Resolve on an unlocked account is accepted exactly when
the referenced id is under active dispute and the entry's client matches
(`resolve_ok`); acceptance unmarks the dispute and moves the entry amount
from held back to available (restoring the pre-dispute balances), leaving
the ledger and all other accounts alone, after which the id is disputable
again; refusal leaves every state component unchanged. -/
theorem resolve_spec (s : EngineState) (t : Transaction)
    (ht : t.type = TransactionType.resolve)
    (hl : (getAccount s t.client_id).locked = false)
    (hnd : s.disputed_deposits_ids.Nodup) :
    (resolve_ok s t = true →
      (processRecord s t).deposits_withdrawals = s.deposits_withdrawals ∧
      (processRecord s t).disputed_deposits_ids = s.disputed_deposits_ids.erase t.id ∧
      is_under_dispute (processRecord s t) t.id = false ∧
      getAccount (processRecord s t) t.client_id =
        { getAccount s t.client_id with
            held := (getAccount s t.client_id).held - entry_amount s t.id,
            available := (getAccount s t.client_id).available + entry_amount s t.id } ∧
      (∀ c, c ≠ t.client_id → getAccount (processRecord s t) c = getAccount s c) ∧
      is_transaction_disputable (processRecord s t) t.id = true) ∧
    (resolve_ok s t = false → Unchanged s (processRecord s t)) := by
  rw [processRecord_eq_handle s t (is_valid_of_resolve t ht),
    handle_eq_of_unlocked s t hl, ht]
  dsimp only
  constructor
  · intro hok
    simp only [resolve_ok, Bool.and_eq_true] at hok
    obtain ⟨hud, hcl⟩ := hok
    cases hE : lookupTx s t.id with
    | none => rw [hE] at hcl; cases hcl
    | some e =>
      rw [hE] at hcl
      dsimp only at hcl
      unfold resolveOp
      rw [if_pos (by rw [is_under_dispute_ensureClient]; exact hud)]
      rw [lookupTx_ensureClient, hE]
      dsimp only
      rw [if_pos hcl]
      dsimp only
      refine ⟨by simp, by simp, ?_, ?_, ?_, ?_⟩
      · simp [is_under_dispute, hnd.not_mem_erase]
      · rw [entry_amount_eq s t.id e hE]
        rw [getAccount_updateAccount_self, getAccount_withDisputed,
          getAccount_ensureClient]
      · intro c hc
        rw [getAccount_updateAccount_ne _ _ _ hc, getAccount_withDisputed,
          getAccount_ensureClient]
      · have hE2 : (s.deposits_withdrawals.find? (fun p => p.1 == t.id)).map
            (fun x : Nat × Transaction => x.2) = some e := hE
        simp [is_transaction_disputable, is_under_dispute, hnd.not_mem_erase, hE2]
  · intro hnok
    simp only [resolve_ok] at hnok
    unfold resolveOp
    by_cases hud : is_under_dispute s t.id = true
    · rw [if_pos (by rw [is_under_dispute_ensureClient]; exact hud)]
      cases hE : lookupTx s t.id with
      | none =>
        rw [lookupTx_ensureClient, hE]
        exact unchanged_ensureClient s t.client_id
      | some e =>
        rw [lookupTx_ensureClient, hE]
        dsimp only
        rw [hE] at hnok
        dsimp only at hnok
        rw [hud] at hnok
        simp only [Bool.true_and] at hnok
        rw [if_neg (by simp [hnok])]
        exact unchanged_ensureClient s t.client_id
    · rw [if_neg (by rw [is_under_dispute_ensureClient]; exact hud)]
      exact unchanged_ensureClient s t.client_id

/-- Claim C5: a record whose target account is locked is refused whatever
its kind: the engine state is completely unchanged, and (when the record
passed the validator and reached the engine) the locked-account diagnostic
is emitted. -/
theorem locked_spec (s : EngineState) (t : Transaction)
    (hl : (getAccount s t.client_id).locked = true) :
    processRecord s t = s ∧
    (handle_transaction s t).2 =
      ["Client account is locked, could not perform operation"] := by
  have hh := handle_eq_of_locked s t hl
  constructor
  · unfold processRecord
    split
    · rw [hh]
    · rfl
  · rw [hh]

/-- Claim C6: a ledger binding, once recorded, survives the processing of
any later record unchanged, and a Deposit or Withdrawal reusing an id
already in the ledger (whatever client recorded it) is refused with no
state change. -/
theorem txid_unique_spec (s : EngineState) (t : Transaction) (txid : Nat)
    (e : Transaction) (h : lookupTx s txid = some e) :
    lookupTx (processRecord s t) txid = some e ∧
    ((t.type = TransactionType.deposit ∨ t.type = TransactionType.withdrawal) →
      t.id = txid → Unchanged s (processRecord s t)) := by
  refine ⟨lookupTx_processRecord_of_some s t txid e h, ?_⟩
  intro hk hid
  subst hid
  have hu : is_transaction_unique s t.id = false := by
    rw [is_transaction_unique, h]
    rfl
  unfold processRecord
  split
  · by_cases hl : (getAccount s t.client_id).locked = true
    · rw [handle_eq_of_locked s t hl]
      exact unchanged_refl s
    · rw [Bool.not_eq_true] at hl
      rw [handle_eq_of_unlocked s t hl]
      rcases hk with hk | hk <;>
        · rw [hk]
          dsimp only
          rw [if_neg (by rw [hu]; simp)]
          exact unchanged_ensureClient s t.client_id
  · exact unchanged_refl s

/-- Claim C7: a Withdrawal or Dispute whose debit amount exceeds the
account's available balance is refused with no state change, and neither
operation ever drives a nonnegative available balance negative. -/
theorem no_negative_available (s : EngineState) (t : Transaction)
    (ht : t.type = TransactionType.withdrawal ∨ t.type = TransactionType.dispute) :
    (¬ debitAmount s t ≤ (getAccount s t.client_id).available →
      Unchanged s (processRecord s t)) ∧
    (0 ≤ (getAccount s t.client_id).available →
      0 ≤ (getAccount (processRecord s t) t.client_id).available) := by
  have key : Unchanged s (processRecord s t) ∨
      (debitAmount s t ≤ (getAccount s t.client_id).available ∧
        (getAccount (processRecord s t) t.client_id).available =
          (getAccount s t.client_id).available - debitAmount s t) := by
    unfold processRecord
    split
    case isFalse => exact Or.inl (unchanged_refl s)
    case isTrue hv =>
      by_cases hl : (getAccount s t.client_id).locked = true
      · rw [handle_eq_of_locked s t hl]
        exact Or.inl (unchanged_refl s)
      · rw [Bool.not_eq_true] at hl
        rw [handle_eq_of_unlocked s t hl]
        rcases ht with hk | hk
        · rw [hk]
          dsimp only
          by_cases hu : is_transaction_unique s t.id = true
          · rw [if_pos hu]
            unfold withdrawalOp
            by_cases hfd : are_enough_funds t.amount
                (getAccount (ensureClient s t.client_id) t.client_id) = true
            · rw [if_pos hfd]
              rw [getAccount_ensureClient, are_enough_funds] at hfd
              refine Or.inr ⟨?_, ?_⟩
              · simp only [debitAmount, hk]
                exact of_decide_eq_true hfd
              · simp only [debitAmount, hk]
                rw [getAccount_updateAccount_self, getAccount_recordTx,
                  getAccount_ensureClient]
            · rw [if_neg hfd]
              exact Or.inl (unchanged_ensureClient s t.client_id)
          · rw [if_neg hu]
            exact Or.inl (unchanged_ensureClient s t.client_id)
        · rw [hk]
          dsimp only
          unfold disputeOp
          cases hE : lookupTx s t.id with
          | none =>
            rw [lookupTx_ensureClient, hE]
            exact Or.inl (unchanged_ensureClient s t.client_id)
          | some e =>
            rw [lookupTx_ensureClient, hE]
            dsimp only
            by_cases h1 : (!is_under_dispute (ensureClient s t.client_id) t.id &&
                (t.client_id == e.client_id)) = true
            · rw [if_pos h1]
              by_cases hfd : are_enough_funds e.amount
                  (getAccount (ensureClient s t.client_id) t.client_id) = true
              · rw [if_pos hfd]
                rw [getAccount_ensureClient, are_enough_funds] at hfd
                refine Or.inr ⟨?_, ?_⟩
                · simp only [debitAmount, hk]
                  rw [entry_amount_eq s t.id e hE]
                  exact of_decide_eq_true hfd
                · simp only [debitAmount, hk]
                  rw [entry_amount_eq s t.id e hE]
                  rw [getAccount_updateAccount_self, getAccount_withDisputed,
                    getAccount_ensureClient]
              · rw [if_neg hfd]
                exact Or.inl (unchanged_ensureClient s t.client_id)
            · rw [if_neg h1]
              exact Or.inl (unchanged_ensureClient s t.client_id)
  constructor
  · intro hgt
    rcases key with hk | hk
    · exact hk
    · exact absurd hk.1 hgt
  · intro h0
    rcases key with hk | hk
    · rw [hk.2.2 t.client_id]
      exact h0
    · rw [hk.2]
      exact sub_nonneg.mpr hk.1

/-- Claim C8 (amended): a record handled by the engine produces no
diagnostic exactly when it is accepted or is the one silent refusal (a
Dispute passing the disputability and client checks but failing the
available-funds check); equivalently, every other refusal emits a
diagnostic. Refusals never abort the run: the loop always continues with
the next record from the updated state. -/
theorem refusal_diagnostics (s : EngineState) (t : Transaction) :
    ((handle_transaction s t).2 = [] ↔ (accepts s t || silentRefusal s t) = true) ∧
    (∀ ts, runEngine s (t :: ts) = runEngine (processRecord s t) ts) := by
  refine ⟨?_, fun ts => rfl⟩
  by_cases hl : (getAccount s t.client_id).locked = true
  · rw [handle_eq_of_locked s t hl]
    simp [accepts, silentRefusal, hl]
  · rw [Bool.not_eq_true] at hl
    rw [handle_eq_of_unlocked s t hl]
    cases hk : t.type with
    | deposit =>
      dsimp only
      by_cases hu : is_transaction_unique s t.id = true
      · rw [if_pos hu]
        simp [accepts, silentRefusal, hl, hk, deposit_ok, hu]
      · rw [if_neg hu]
        rw [Bool.not_eq_true] at hu
        simp [accepts, silentRefusal, hl, hk, deposit_ok, hu]
    | withdrawal =>
      dsimp only
      by_cases hu : is_transaction_unique s t.id = true
      · rw [if_pos hu]
        unfold withdrawalOp
        by_cases hfd : are_enough_funds t.amount
            (getAccount (ensureClient s t.client_id) t.client_id) = true
        · rw [if_pos hfd]
          rw [getAccount_ensureClient] at hfd
          simp [accepts, silentRefusal, hl, hk, withdrawal_ok, hu, hfd]
        · rw [if_neg hfd]
          rw [getAccount_ensureClient] at hfd
          rw [Bool.not_eq_true] at hfd
          simp [accepts, silentRefusal, hl, hk, withdrawal_ok, hu, hfd]
      · rw [if_neg hu]
        rw [Bool.not_eq_true] at hu
        simp [accepts, silentRefusal, hl, hk, withdrawal_ok, hu]
    | dispute =>
      dsimp only
      unfold disputeOp
      cases hE : lookupTx s t.id with
      | none =>
        rw [lookupTx_ensureClient, hE]
        simp [accepts, silentRefusal, hl, hk, dispute_ok, hE]
      | some e =>
        rw [lookupTx_ensureClient, hE]
        dsimp only
        by_cases h1 : (!is_under_dispute (ensureClient s t.client_id) t.id &&
            (t.client_id == e.client_id)) = true
        · rw [if_pos h1]
          rw [is_under_dispute_ensureClient, Bool.and_eq_true, Bool.not_eq_true'] at h1
          obtain ⟨hud, hcl⟩ := h1
          by_cases hfd : are_enough_funds e.amount
              (getAccount (ensureClient s t.client_id) t.client_id) = true
          · rw [if_pos hfd]
            rw [getAccount_ensureClient] at hfd
            simp [accepts, silentRefusal, hl, hk, dispute_ok, hE, hud, hcl, hfd]
          · rw [if_neg hfd]
            rw [getAccount_ensureClient] at hfd
            rw [Bool.not_eq_true] at hfd
            simp [accepts, silentRefusal, hl, hk, dispute_ok, hE, hud, hcl, hfd]
        · rw [if_neg h1]
          rw [is_under_dispute_ensureClient] at h1
          simp only [Bool.and_eq_true, Bool.not_eq_true', not_and] at h1
          by_cases hud : is_under_dispute s t.id = false
          · have hcl : (t.client_id == e.client_id) = false := by
              cases hc : (t.client_id == e.client_id) with
              | false => rfl
              | true => exact absurd hc (h1 hud)
            simp [accepts, silentRefusal, hl, hk, dispute_ok, hE, hud, hcl]
          · rw [Bool.not_eq_false] at hud
            simp [accepts, silentRefusal, hl, hk, dispute_ok, hE, hud]
    | resolve =>
      dsimp only
      unfold resolveOp
      by_cases hud : is_under_dispute s t.id = true
      · rw [if_pos (by rw [is_under_dispute_ensureClient]; exact hud)]
        cases hE : lookupTx s t.id with
        | none =>
          rw [lookupTx_ensureClient, hE]
          simp [accepts, silentRefusal, hl, hk, resolve_ok, hE]
        | some e =>
          rw [lookupTx_ensureClient, hE]
          dsimp only
          by_cases hcl : (t.client_id == e.client_id) = true
          · rw [if_pos hcl]
            simp [accepts, silentRefusal, hl, hk, resolve_ok, hE, hud, hcl]
          · rw [if_neg hcl]
            rw [Bool.not_eq_true] at hcl
            simp [accepts, silentRefusal, hl, hk, resolve_ok, hE, hud, hcl]
      · rw [if_neg (by rw [is_under_dispute_ensureClient]; exact hud)]
        rw [Bool.not_eq_true] at hud
        simp [accepts, silentRefusal, hl, hk, resolve_ok, hud]
    | chargeback =>
      dsimp only
      unfold chargebackOp
      by_cases hud : is_under_dispute s t.id = true
      · rw [if_pos (by rw [is_under_dispute_ensureClient]; exact hud)]
        cases hE : lookupTx s t.id with
        | none =>
          rw [lookupTx_ensureClient, hE]
          simp [accepts, silentRefusal, hl, hk, chargeback_ok, resolve_ok, hE]
        | some e =>
          rw [lookupTx_ensureClient, hE]
          dsimp only
          by_cases hcl : (t.client_id == e.client_id) = true
          · rw [if_pos hcl]
            simp [accepts, silentRefusal, hl, hk, chargeback_ok, resolve_ok, hE, hud, hcl]
          · rw [if_neg hcl]
            rw [Bool.not_eq_true] at hcl
            simp [accepts, silentRefusal, hl, hk, chargeback_ok, resolve_ok, hE, hud, hcl]
      · rw [if_neg (by rw [is_under_dispute_ensureClient]; exact hud)]
        rw [Bool.not_eq_true] at hud
        simp [accepts, silentRefusal, hl, hk, chargeback_ok, resolve_ok, hud]

/-- Claim C10: in every reachable state each account's held balance is the
sum of the ledger amounts of that client's active disputes, hence never
negative; in particular processing any further record — an accepted
Chargeback included — leaves every held balance nonnegative. -/
theorem held_matches_disputes (s : EngineState) (hr : Reachable s) :
    ∀ c, (getAccount s c).held = heldSum s c ∧ 0 ≤ (getAccount s c).held ∧
      ∀ t, 0 ≤ (getAccount (processRecord s t) c).held := by
  have hw := wf_reachable s hr
  intro c
  have h1 := hw.held_eq c
  have h2 : 0 ≤ (getAccount s c).held := by
    rw [h1]
    unfold heldSum
    apply heldSumIds_nonneg
    intro txid htx
    exact entry_amount_pos s txid hw.amounts_pos (hw.disputed_has_entry txid htx)
  refine ⟨h1, h2, fun t => ?_⟩
  have hw2 : WF (processRecord s t) := wf_processRecord s t hw
  rw [hw2.held_eq c]
  unfold heldSum
  apply heldSumIds_nonneg
  intro txid htx
  exact entry_amount_pos _ txid hw2.amounts_pos (hw2.disputed_has_entry txid htx)

/-! ### Concrete fixture evaluations -/

theorem find?_cons_eval {α : Type} (p : α → Bool) (a : α) (l : List α) :
    (a :: l).find? p = if p a then some a else l.find? p := by
  cases h : p a with
  | true =>
    rw [List.find?_cons_of_pos _ h]
    simp [h]
  | false =>
    rw [List.find?_cons_of_neg _ (by simp [h])]
    simp [h]

theorem sample1_eq :
    sample1 = ⟨[(100, txD1)], [], [(1, ⟨10, 0, false⟩)]⟩ := by
  norm_num [sample1, runEngine, processRecord, is_valid, txD1, handle_transaction,
    ensureClient, getAccount, initState, is_transaction_unique, lookupTx, depositOp,
    updateAccount, setAccount, recordTx, find?_cons_eval]

theorem sample2_eq :
    sample2 = ⟨[(100, txD1), (101, txW1)], [], [(1, ⟨4, 0, false⟩)]⟩ := by
  norm_num [sample2, runEngine, processRecord, is_valid, txD1, txW1,
    handle_transaction, ensureClient, getAccount, initState, is_transaction_unique,
    lookupTx, depositOp, withdrawalOp, are_enough_funds, updateAccount, setAccount,
    recordTx, find?_cons_eval]

theorem sampleDisputed_eq :
    sampleDisputed = ⟨[(100, txD1)], [100], [(1, ⟨0, 10, false⟩)]⟩ := by
  norm_num [sampleDisputed, runEngine, processRecord, is_valid, txD1, txDis1,
    handle_transaction, ensureClient, getAccount, initState, is_transaction_unique,
    is_under_dispute, lookupTx, depositOp, disputeOp, are_enough_funds,
    updateAccount, setAccount, recordTx, find?_cons_eval, List.contains_cons]

theorem sampleLocked_eq :
    sampleLocked = ⟨[(100, txD1)], [], [(1, ⟨0, 0, true⟩)]⟩ := by
  norm_num [sampleLocked, runEngine, processRecord, is_valid, txD1, txDis1, txCb1,
    handle_transaction, ensureClient, getAccount, initState, is_transaction_unique,
    is_under_dispute, lookupTx, depositOp, disputeOp, chargebackOp, are_enough_funds,
    updateAccount, setAccount, recordTx, find?_cons_eval, List.contains_cons,
    List.erase_cons]

/-- Claim C8 counterexample: in the state after a deposit of 10 and a
withdrawal of 6 (available 4), disputing the deposit passes the
disputability and client checks but fails the available-funds check: the
record is refused (not accepted, state unchanged) yet the engine emits no
diagnostic, contradicting the claim that every business-rule refusal
produces one. -/
theorem dispute_refused_without_diagnostic :
    accepts sample2 txDis1 = false ∧
    handle_transaction sample2 txDis1 = (sample2, []) := by
  rw [sample2_eq]
  constructor
  · norm_num [accepts, dispute_ok, txDis1, txD1, getAccount, lookupTx, find?_cons_eval,
      is_under_dispute, are_enough_funds]
  · norm_num [handle_transaction, ensureClient, getAccount, lookupTx, find?_cons_eval,
      disputeOp, is_under_dispute, are_enough_funds, txDis1, txD1]

/-! ### Witnesses at concrete inputs -/

/-- Witness for C1: an accepted concrete dispute marks its id disputed. -/
theorem dispute_spec_witness :
    txDis1.id ∈ (processRecord sample1 txDis1).disputed_deposits_ids :=
  ((dispute_spec sample1 txDis1 rfl
      (by rw [sample1_eq]; norm_num [getAccount, txDis1, find?_cons_eval])).1
    (by rw [sample1_eq]; norm_num [dispute_ok, txDis1, txD1, lookupTx, find?_cons_eval,
      is_under_dispute, are_enough_funds, getAccount])).2.2.1

/-- Witness for C2: an accepted concrete withdrawal is recorded in the
ledger. -/
theorem withdrawal_spec_witness :
    lookupTx (processRecord sample1 txW1) txW1.id = some txW1 :=
  ((withdrawal_spec sample1 txW1 rfl (by norm_num [is_valid, txW1])
      (by rw [sample1_eq]; norm_num [getAccount, txW1, find?_cons_eval])).1
    (by rw [sample1_eq]; norm_num [withdrawal_ok, is_transaction_unique, lookupTx,
      txW1, txD1, find?_cons_eval, are_enough_funds, getAccount])).1

/-- Witness for C3: an accepted concrete chargeback unmarks the dispute. -/
theorem chargeback_spec_witness :
    is_under_dispute (processRecord sampleDisputed txCb1) txCb1.id = false :=
  ((chargeback_spec sampleDisputed txCb1 rfl
      (by rw [sampleDisputed_eq]; norm_num [getAccount, txCb1, find?_cons_eval])
      (by rw [sampleDisputed_eq]; norm_num)).1
    (by rw [sampleDisputed_eq]; norm_num [chargeback_ok, resolve_ok, is_under_dispute,
      List.contains_cons, lookupTx, txCb1, txD1, find?_cons_eval])).2.2.1

/-- Witness for C4: after an accepted concrete resolve the id is
disputable again. -/
theorem resolve_spec_witness :
    is_transaction_disputable (processRecord sampleDisputed txRes1) txRes1.id = true :=
  ((resolve_spec sampleDisputed txRes1 rfl
      (by rw [sampleDisputed_eq]; norm_num [getAccount, txRes1, find?_cons_eval])
      (by rw [sampleDisputed_eq]; norm_num)).1
    (by rw [sampleDisputed_eq]; norm_num [resolve_ok, is_under_dispute,
      List.contains_cons, lookupTx, txRes1, txD1, find?_cons_eval])).2.2.2.2.2

/-- Witness for C5: a deposit on a concrete locked account leaves the
state untouched. -/
theorem locked_spec_witness :
    processRecord sampleLocked txD2 = sampleLocked :=
  (locked_spec sampleLocked txD2
    (by rw [sampleLocked_eq]; norm_num [getAccount, txD2, find?_cons_eval])).1

/-- Witness for C6: a concrete duplicated deposit leaves the original
ledger entry in place. -/
theorem txid_unique_spec_witness :
    lookupTx (processRecord sample1 txD1) 100 = some txD1 :=
  (txid_unique_spec sample1 txD1 100 txD1
    (by rw [sample1_eq]; norm_num [lookupTx, find?_cons_eval, txD1])).1

/-- Witness for C7: a concrete overdrawing withdrawal is refused with no
state change. -/
theorem no_negative_available_witness :
    Unchanged sample1 (processRecord sample1 txWbig) :=
  (no_negative_available sample1 txWbig (Or.inl rfl)).1
    (by rw [sample1_eq]; norm_num [debitAmount, txWbig, getAccount, find?_cons_eval])

/-- Witness for C10 at a concrete reachable state with one active
dispute. -/
theorem held_matches_disputes_witness :
    (getAccount sampleDisputed 1).held = heldSum sampleDisputed 1 ∧
      0 ≤ (getAccount sampleDisputed 1).held ∧
      ∀ t, 0 ≤ (getAccount (processRecord sampleDisputed t) 1).held :=
  held_matches_disputes sampleDisputed ⟨[txD1, txDis1], rfl⟩ 1

end PaymentEngine
